import Mathlib

/-!
# Verification of the atomix transaction coordinator core

Shallow embedding of `src/coordinator/src/transaction.rs` (the `Transaction`
struct and its operations `get`, `put`, `del`, `commit`, `abort`,
`record_abort`, `check_still_running`, `resolve_keyspace`,
`resolve_full_record_key`, `get_participant_range`).

Modelling conventions:
- `Bytes` (keys/values), `RangeId` (`FullRangeId`) and `KeyspaceId` are opaque
  identifiers, modelled as `Nat`.
- Rust `HashMap` is modelled as an association list with in-place update
  (`aset`), `HashSet` as a duplicate-avoiding list (`sinsert` / `serase`).
- Every external collaborator call (universe directory, range-assignment
  oracle, range client, epoch reader, transaction state store) is a
  suspension point whose response is passed in as an explicit argument, so
  each operation is a pure function from the transaction state and the
  collaborator responses to a `StepRes`: an `Outcome` (normal return, error
  return, or process panic from an `unwrap`/`assert!`/stub), the new
  transaction state, and the trace of RPC events dispatched, in dispatch
  order.
- `u64` / `i64` casts (`as`) are modelled with explicit modular arithmetic.
-/

namespace Atomix

/-- Opaque byte strings (`bytes::Bytes`), modelled as `Nat`. -/
abbrev Bytes := Nat

/-- Opaque `FullRangeId` (keyspace id + range uuid), modelled as `Nat`. -/
abbrev RangeId := Nat

/-- Opaque 128-bit `KeyspaceId`, modelled as `Nat`. -/
abbrev KeyspaceId := Nat

/-- A keyspace name: pair (namespace, name) of strings
(`coordinator/src/keyspace.rs`, used at `transaction.rs` lines 74-77). -/
structure Keyspace where
  nspace : String
  name : String
deriving DecidableEq, Repr

/-- Association-list lookup (models `HashMap::get`). -/
def alookup {α β : Type} [DecidableEq α] : List (α × β) → α → Option β
  | [], _ => none
  | (a, b) :: t, k => if a = k then some b else alookup t k

/-- Association-list in-place insert/overwrite (models `HashMap::insert`). -/
def aset {α β : Type} [DecidableEq α] (k : α) (v : β) : List (α × β) → List (α × β)
  | [] => [(k, v)]
  | (a, b) :: t => if a = k then (k, v) :: t else (a, b) :: aset k v t

/-- Association-list key removal (models `HashMap::remove`). -/
def aerase {α β : Type} [DecidableEq α] (k : α) (l : List (α × β)) : List (α × β) :=
  l.filter (fun p => decide (p.1 ≠ k))

/-- Set insert (models `HashSet::insert`). -/
def sinsert {α : Type} [DecidableEq α] (k : α) (s : List α) : List α :=
  if k ∈ s then s else k :: s

/-- Set removal (models `HashSet::remove`). -/
def serase {α : Type} [DecidableEq α] (k : α) (s : List α) : List α :=
  s.filter (fun a => decide (a ≠ k))

/-- `i64 as u64` (two's-complement reinterpretation, i.e. mod 2^64). -/
def i64ToU64 (x : Int) : Nat := (x.emod ((2 : Int) ^ 64)).toNat

/-- `u64 as i64` (two's-complement reinterpretation). -/
def u64ToI64 (n : Nat) : Int :=
  if n < 2 ^ 63 then (n : Int) else (n : Int) - 2 ^ 64

/-- Modelled from the spec: `common::constants::INVALID_LEADER_SEQUENCE_NUMBER`
lives in the `common` crate, which is not under `src/`. The spec (section on
`LeaderSequenceNumber` and Design Notes on sentinels) describes it as the
numeric sentinel meaning "server reported no leader epoch", distinct from
`UNSET`; the standard protocol-compact choice, consistent with the field type
`i64` and the `UNSET` initializer `0`, is `-1`. -/
def INVALID_LEADER_SEQUENCE_NUMBER : Int := -1

/-- Modelled from the spec: `common::constants::UNSET_LEADER_SEQUENCE_NUMBER`
is not under `src/`. The spec describes it as the sentinel meaning "the
coordinator has not yet observed any leader epoch"; `get_participant_range`
(`transaction.rs` line 133) initializes `leader_sequence_number` to `0`,
which the code then compares against `UNSET_LEADER_SEQUENCE_NUMBER as u64`,
so `UNSET` is `0`. -/
def UNSET_LEADER_SEQUENCE_NUMBER : Int := 0

/-- Transaction state (`enum State`, `transaction.rs` lines 30-35). -/
inductive State where
  | running
  | preparing
  | aborted
  | committed
deriving DecidableEq, Repr

/-- `TransactionAbortReason` (`coordinator/src/error.rs` is not under `src/`;
the variants are the ones used in `transaction.rs` and listed in spec §7). -/
inductive TransactionAbortReason where
  | rangeLeadershipChanged
  | prepareFailed
  | rangeLeaseExpired
  | other
deriving DecidableEq, Repr

/-- `Error` (`coordinator/src/error.rs` is not under `src/`; the variants are
the ones used in `transaction.rs` and listed in spec §7). `InternalError`
drops its cause payload. -/
inductive Error where
  | internalError
  | keyspaceDoesNotExist
  | transactionAborted (reason : TransactionAbortReason)
  | transactionNoLongerRunning
deriving DecidableEq, Repr

/-- `ParticipantRange` (`transaction.rs` lines 37-42). `readset` and
`deleteset` are `HashSet<Bytes>` (lists used as sets), `writeset` is
`HashMap<Bytes, Bytes>` (association list), `leader_sequence_number` is `u64`
(a `Nat`, always below 2^64 in reachable states). -/
structure ParticipantRange where
  readset : List Bytes
  writeset : List (Bytes × Bytes)
  deleteset : List Bytes
  leader_sequence_number : Nat
deriving DecidableEq, Repr

/-- The coordinator-side mutable state of a `Transaction`
(`transaction.rs` lines 44-56): the current `State`, the participant map and
the resolved-keyspace cache. The id, collaborator handles and runtime handle
carry no state relevant to the embedded operations. -/
structure Transaction where
  state : State
  participant_ranges : List (RangeId × ParticipantRange)
  resolved_keyspaces : List (Keyspace × KeyspaceId)
deriving DecidableEq, Repr

/-- `FullRecordKey` (`transaction.rs` lines 58-62). -/
structure FullRecordKey where
  range_id : RangeId
  key : Bytes
deriving DecidableEq, Repr

/-- Response of the universe directory to `get_keyspace_info`
(`transaction.rs` lines 80-91): transport error, keyspace not found, or the
keyspace id. -/
inductive UniverseResp where
  | transportErr
  | notFound
  | found (id : KeyspaceId)
deriving DecidableEq, Repr

/-- Successful payload of a range-client `get`: `vals` is one optional value
per requested key and `leader_sequence_number` is an `i64`
(`rangeclient::client` is not under `src/`; the shape is fixed by its uses in
`transaction.rs` lines 160 and 175, by `GetResult` in
`src/rangeserver/src/range_manager.rs`, and by the integration tests). -/
structure GetRangeOk where
  vals : List (Option Bytes)
  leader_sequence_number : Int
deriving DecidableEq, Repr

/-- Outcome of one range-client `get` RPC: transport/client error (which
`transaction.rs` line 158 `unwrap`s, i.e. panics on) or success. -/
inductive RangeGetResp where
  | rpcErr
  | ok (res : GetRangeOk)
deriving DecidableEq, Repr

/-- Successful payload of a range-client `prepare`
(`PrepareResult` in `src/rangeserver/src/range_manager.rs` lines 17-20). -/
structure PrepareOk where
  highest_known_epoch : Nat
  epoch_lease : Nat × Nat
deriving DecidableEq, Repr

/-- Outcome of one prepare task as seen by `JoinSet::join_next`
(`transaction.rs` lines 283-298): task-level failure (`Err(_)` from the join),
a range-client error inside the task, or success. -/
inductive PrepOutcome where
  | joinErr
  | clientErr
  | ok (res : PrepareOk)
deriving DecidableEq, Repr

/-- `CommitInfo` payload of a committed decision from the transaction state
store (`tx_state_store::client` is not under `src/`; only its `epoch` field
is consumed, at `transaction.rs` line 325). -/
structure CommitInfo where
  epoch : Nat
deriving DecidableEq, Repr

/-- `tx_state_store::client::OpResult` (`tx_state_store` is not under
`src/`; the two variants are the ones matched in `transaction.rs` lines
222-227 and 320-325). -/
inductive OpResult where
  | transactionIsAborted
  | transactionIsCommitted (info : CommitInfo)
deriving DecidableEq, Repr

/-- RPC / collaborator events a coordinator operation dispatches, in program
(dispatch) order. `prepareRpc` is the spawn of a prepare task for a range,
`prepareJoin` the completed await of that task's result. -/
inductive Event where
  | universeLookup (ks : Keyspace)
  | rangeGetRpc (r : RangeId) (key : Bytes)
  | prepareRpc (r : RangeId)
  | prepareJoin (r : RangeId)
  | readEpoch
  | tryCommit (epoch : Nat)
  | tryAbort
  | commitRpc (r : RangeId)
  | abortRpc (r : RangeId)
deriving DecidableEq, Repr

/-- How an operation of the coordinator terminates: normal return with a
value, an `Err` return, or a process panic (a failed `unwrap`, a failed
`assert!`, or the `panic!` stub `error_from_rangeclient_error`). -/
inductive Outcome (α : Type) where
  | ok (a : α)
  | err (e : Error)
  | panic
deriving DecidableEq, Repr

/-- Result of running one coordinator operation: its outcome, the transaction
state afterwards, and the trace of dispatched collaborator events. -/
structure StepRes (α : Type) where
  out : Outcome α
  tx : Transaction
  trace : List Event
deriving DecidableEq, Repr

/-- The empty participant-range record created by `get_participant_range`
(`transaction.rs` lines 129-134). -/
def emptyParticipantRange : ParticipantRange :=
  { readset := [], writeset := [], deleteset := [], leader_sequence_number := 0 }

/-- `Transaction::get_participant_range` (`transaction.rs` lines 126-136):
look up the range in the participant map, inserting an empty record first if
absent; returns the updated transaction and the (possibly fresh) record. -/
def Transaction.get_participant_range (tx : Transaction) (r : RangeId) :
    Transaction × ParticipantRange :=
  match alookup tx.participant_ranges r with
  | some pr => (tx, pr)
  | none =>
      ({ tx with participant_ranges := (r, emptyParticipantRange) :: tx.participant_ranges },
       emptyParticipantRange)

/-- Overwrite the participant record of range `r` (models mutation through
the `&mut ParticipantRange` returned by `get_participant_range`). -/
def Transaction.setPR (tx : Transaction) (r : RangeId) (pr : ParticipantRange) :
    Transaction :=
  { tx with participant_ranges := aset r pr tx.participant_ranges }

/-- `Transaction::check_still_running` (`transaction.rs` lines 118-124). -/
def Transaction.check_still_running (tx : Transaction) : Option Error :=
  match tx.state with
  | State.running => none
  | State.aborted => some (Error.transactionAborted TransactionAbortReason.other)
  | State.preparing => some Error.transactionNoLongerRunning
  | State.committed => some Error.transactionNoLongerRunning

/-- `Transaction::resolve_keyspace` (`transaction.rs` lines 65-95): return
the cached id if present; otherwise consult the universe directory
(`uresp`), surfacing transport errors as `InternalError` and a missing
keyspace as `KeyspaceDoesNotExist`, and cache a successful resolution. -/
def Transaction.resolve_keyspace (tx : Transaction) (uresp : Keyspace → UniverseResp)
    (ks : Keyspace) : StepRes KeyspaceId :=
  match alookup tx.resolved_keyspaces ks with
  | some kid => ⟨Outcome.ok kid, tx, []⟩
  | none =>
      match uresp ks with
      | UniverseResp.transportErr =>
          ⟨Outcome.err Error.internalError, tx, [Event.universeLookup ks]⟩
      | UniverseResp.notFound =>
          ⟨Outcome.err Error.keyspaceDoesNotExist, tx, [Event.universeLookup ks]⟩
      | UniverseResp.found kid =>
          ⟨Outcome.ok kid,
           { tx with resolved_keyspaces := aset ks kid tx.resolved_keyspaces },
           [Event.universeLookup ks]⟩

/-- `Transaction::resolve_full_record_key` (`transaction.rs` lines 97-116):
resolve the keyspace, then ask the range-assignment oracle for the range of
the key; `None` from the oracle is `KeyspaceDoesNotExist`. -/
def Transaction.resolve_full_record_key (tx : Transaction)
    (uresp : Keyspace → UniverseResp) (oracle : KeyspaceId → Bytes → Option RangeId)
    (ks : Keyspace) (key : Bytes) : StepRes FullRecordKey :=
  match tx.resolve_keyspace uresp ks with
  | ⟨Outcome.ok kid, tx1, ev⟩ =>
      match oracle kid key with
      | none => ⟨Outcome.err Error.keyspaceDoesNotExist, tx1, ev⟩
      | some rid => ⟨Outcome.ok ⟨rid, key⟩, tx1, ev⟩
  | ⟨Outcome.err e, tx1, ev⟩ => ⟨Outcome.err e, tx1, ev⟩
  | ⟨Outcome.panic, tx1, ev⟩ => ⟨Outcome.panic, tx1, ev⟩

/-- `Transaction::record_abort` (`transaction.rs` lines 197-230): set the
state to Aborted unconditionally, dispatch an abort RPC to every participant
range, then call the state store's `try_abort` (`tares` is its response,
`none` meaning the call itself failed, which the code `unwrap`s into a
panic); a `Committed` outcome is a protocol violation and panics. -/
def Transaction.record_abort (tx : Transaction) (tares : Option OpResult) :
    StepRes Unit :=
  let tx1 : Transaction := { tx with state := State.aborted }
  let evs : List Event :=
    tx1.participant_ranges.map (fun p => Event.abortRpc p.1) ++ [Event.tryAbort]
  match tares with
  | none => ⟨Outcome.panic, tx1, evs⟩
  | some OpResult.transactionIsAborted => ⟨Outcome.ok (), tx1, evs⟩
  | some (OpResult.transactionIsCommitted _) => ⟨Outcome.panic, tx1, evs⟩

/-- `Transaction::abort` (`transaction.rs` lines 232-240): return OK
immediately when already Aborted; otherwise `check_still_running`, then
`record_abort`. -/
def Transaction.abort (tx : Transaction) (tares : Option OpResult) : StepRes Unit :=
  match tx.state with
  | State.aborted => ⟨Outcome.ok (), tx, []⟩
  | _ =>
      match tx.check_still_running with
      | some e => ⟨Outcome.err e, tx, []⟩
      | none => tx.record_abort tares

/-- `Transaction::put` (`transaction.rs` lines 179-186): check state, resolve
the key to a range, remove the key from that range's deleteset, and
insert/overwrite it in the writeset. -/
def Transaction.put (tx : Transaction) (uresp : Keyspace → UniverseResp)
    (oracle : KeyspaceId → Bytes → Option RangeId) (ks : Keyspace)
    (key val : Bytes) : StepRes Unit :=
  match tx.check_still_running with
  | some e => ⟨Outcome.err e, tx, []⟩
  | none =>
      match tx.resolve_full_record_key uresp oracle ks key with
      | ⟨Outcome.ok frk, tx1, ev⟩ =>
          let (tx2, pr) := tx1.get_participant_range frk.range_id
          let pr1 : ParticipantRange :=
            { pr with
              deleteset := serase key pr.deleteset,
              writeset := aset key val pr.writeset }
          ⟨Outcome.ok (), tx2.setPR frk.range_id pr1, ev⟩
      | ⟨Outcome.err e, tx1, ev⟩ => ⟨Outcome.err e, tx1, ev⟩
      | ⟨Outcome.panic, tx1, ev⟩ => ⟨Outcome.panic, tx1, ev⟩

/-- `Transaction::del` (`transaction.rs` lines 188-195): check state, resolve
the key to a range, remove the key from that range's writeset, and insert it
into the deleteset. -/
def Transaction.del (tx : Transaction) (uresp : Keyspace → UniverseResp)
    (oracle : KeyspaceId → Bytes → Option RangeId) (ks : Keyspace)
    (key : Bytes) : StepRes Unit :=
  match tx.check_still_running with
  | some e => ⟨Outcome.err e, tx, []⟩
  | none =>
      match tx.resolve_full_record_key uresp oracle ks key with
      | ⟨Outcome.ok frk, tx1, ev⟩ =>
          let (tx2, pr) := tx1.get_participant_range frk.range_id
          let pr1 : ParticipantRange :=
            { pr with
              writeset := aerase key pr.writeset,
              deleteset := sinsert key pr.deleteset }
          ⟨Outcome.ok (), tx2.setPR frk.range_id pr1, ev⟩
      | ⟨Outcome.err e, tx1, ev⟩ => ⟨Outcome.err e, tx1, ev⟩
      | ⟨Outcome.panic, tx1, ev⟩ => ⟨Outcome.panic, tx1, ev⟩

/-- The leader-sequence pinning step of `Transaction::get`
(`transaction.rs` lines 160-166): when the observed (`i64`) value is not
`INVALID` and the recorded (`u64`) value equals `UNSET as u64`, record the
observed value (cast `as u64`); otherwise keep the recorded value. -/
def pinLsn (recorded : Nat) (observed : Int) : Nat :=
  if observed ≠ INVALID_LEADER_SEQUENCE_NUMBER ∧
     recorded = i64ToU64 UNSET_LEADER_SEQUENCE_NUMBER then
    i64ToU64 observed
  else recorded

/-- `Transaction::get` (`transaction.rs` lines 138-177): check state, resolve
the key, satisfy the read from the local writeset/deleteset if possible;
otherwise issue a range-server read RPC (`rresp` is its outcome; a client
error is `unwrap`ed, i.e. panics), run the leader-epoch pin/validation
(aborting with `RangeLeadershipChanged` on mismatch, `tares` being the state
store's `try_abort` response inside `record_abort`), insert the key into the
readset and return the first entry of `vals` (`unwrap`ed: an empty `vals`
panics). -/
def Transaction.get (tx : Transaction) (uresp : Keyspace → UniverseResp)
    (oracle : KeyspaceId → Bytes → Option RangeId) (rresp : RangeGetResp)
    (tares : Option OpResult) (ks : Keyspace) (key : Bytes) :
    StepRes (Option Bytes) :=
  match tx.check_still_running with
  | some e => ⟨Outcome.err e, tx, []⟩
  | none =>
      match tx.resolve_full_record_key uresp oracle ks key with
      | ⟨Outcome.err e, tx1, ev⟩ => ⟨Outcome.err e, tx1, ev⟩
      | ⟨Outcome.panic, tx1, ev⟩ => ⟨Outcome.panic, tx1, ev⟩
      | ⟨Outcome.ok frk, tx1, ev⟩ =>
          let (tx2, pr) := tx1.get_participant_range frk.range_id
          match alookup pr.writeset key with
          | some v => ⟨Outcome.ok (some v), tx2, ev⟩
          | none =>
              if key ∈ pr.deleteset then ⟨Outcome.ok none, tx2, ev⟩
              else
                let ev1 := ev ++ [Event.rangeGetRpc frk.range_id key]
                match rresp with
                | RangeGetResp.rpcErr => ⟨Outcome.panic, tx2, ev1⟩
                | RangeGetResp.ok res =>
                    let (tx3, pr2) := tx2.get_participant_range frk.range_id
                    let current := res.leader_sequence_number
                    let pr3 : ParticipantRange :=
                      { pr2 with
                        leader_sequence_number := pinLsn pr2.leader_sequence_number current }
                    let tx4 := tx3.setPR frk.range_id pr3
                    if current ≠ u64ToI64 pr3.leader_sequence_number then
                      match tx4.record_abort tares with
                      | ⟨Outcome.panic, tx5, ev2⟩ => ⟨Outcome.panic, tx5, ev1 ++ ev2⟩
                      | ⟨Outcome.ok _, tx5, ev2⟩ =>
                          ⟨Outcome.err (Error.transactionAborted
                              TransactionAbortReason.rangeLeadershipChanged),
                           tx5, ev1 ++ ev2⟩
                      | ⟨Outcome.err _, tx5, ev2⟩ =>
                          ⟨Outcome.err (Error.transactionAborted
                              TransactionAbortReason.rangeLeadershipChanged),
                           tx5, ev1 ++ ev2⟩
                    else
                      let tx5 := tx4.setPR frk.range_id
                        { pr3 with readset := sinsert key pr3.readset }
                      match res.vals.head? with
                      | none => ⟨Outcome.panic, tx5, ev1⟩
                      | some v => ⟨Outcome.ok v, tx5, ev1⟩

/-- Result of draining the prepare `JoinSet` (`transaction.rs` lines
283-298): all prepares succeeded, some task failed at the join level
(`Err(_)` from `join_next`), or some prepare returned a range-client error
(which `error_from_rangeclient_error`, a `panic!` stub at lines 242-245,
turns into a panic). -/
inductive JoinOut where
  | allOk
  | joinFailed
  | clientFailed
deriving DecidableEq, Repr

/-- Drain the prepare join set in order, stopping at the first failure;
returns the overall outcome and the `prepareJoin` events awaited. -/
def joinPrepares : List RangeId → (RangeId → PrepOutcome) → JoinOut × List Event
  | [], _ => (JoinOut.allOk, [])
  | r :: rest, f =>
      match f r with
      | PrepOutcome.joinErr => (JoinOut.joinFailed, [Event.prepareJoin r])
      | PrepOutcome.clientErr => (JoinOut.clientFailed, [Event.prepareJoin r])
      | PrepOutcome.ok _ =>
          let (o, ev) := joinPrepares rest f
          (o, Event.prepareJoin r :: ev)

/-- `Transaction::commit` (`transaction.rs` lines 247-347): check state, move
to Preparing, spawn one prepare task per participant range, read the cluster
epoch (`epochRes`, `unwrap`ed), await all prepares (`prepRes` gives each
task's outcome; a join failure record-aborts and fails with `PrepareFailed`,
a range-client error panics in the stub error mapper; the prepare-returned
epoch leases and highest known epochs are ignored — that code is commented
out), call the state store's `try_commit` (`tcres`, `unwrap`ed; an `Aborted`
decision fails with `TransactionAborted(Other)`, a `Committed` decision with
a different epoch fails the `assert!`), then move to Committed and dispatch
one commit RPC per participant. -/
def Transaction.commit (tx : Transaction) (prepRes : RangeId → PrepOutcome)
    (epochRes : Option Nat) (tcres : Option OpResult) (tares : Option OpResult) :
    StepRes Unit :=
  match tx.check_still_running with
  | some e => ⟨Outcome.err e, tx, []⟩
  | none =>
      let tx1 : Transaction := { tx with state := State.preparing }
      let ranges := tx1.participant_ranges.map Prod.fst
      let evP := ranges.map Event.prepareRpc
      match epochRes with
      | none => ⟨Outcome.panic, tx1, evP ++ [Event.readEpoch]⟩
      | some epoch =>
          let (jout, evJ) := joinPrepares ranges prepRes
          let ev1 := evP ++ [Event.readEpoch] ++ evJ
          match jout with
          | JoinOut.joinFailed =>
              match tx1.record_abort tares with
              | ⟨Outcome.panic, tx2, evA⟩ => ⟨Outcome.panic, tx2, ev1 ++ evA⟩
              | ⟨Outcome.ok _, tx2, evA⟩ =>
                  ⟨Outcome.err (Error.transactionAborted
                      TransactionAbortReason.prepareFailed), tx2, ev1 ++ evA⟩
              | ⟨Outcome.err _, tx2, evA⟩ =>
                  ⟨Outcome.err (Error.transactionAborted
                      TransactionAbortReason.prepareFailed), tx2, ev1 ++ evA⟩
          | JoinOut.clientFailed => ⟨Outcome.panic, tx1, ev1⟩
          | JoinOut.allOk =>
              let ev2 := ev1 ++ [Event.tryCommit epoch]
              match tcres with
              | none => ⟨Outcome.panic, tx1, ev2⟩
              | some OpResult.transactionIsAborted =>
                  ⟨Outcome.err (Error.transactionAborted TransactionAbortReason.other),
                   tx1, ev2⟩
              | some (OpResult.transactionIsCommitted info) =>
                  if info.epoch = epoch then
                    ⟨Outcome.ok (), { tx1 with state := State.committed },
                     ev2 ++ ranges.map Event.commitRpc⟩
                  else ⟨Outcome.panic, tx1, ev2⟩

/-- Is this event a `try_commit` state-store call? -/
def isTryCommitEv : Event → Bool
  | Event.tryCommit _ => true
  | _ => false

/-- Is this event a `try_abort` state-store call? -/
def isTryAbortEv : Event → Bool
  | Event.tryAbort => true
  | _ => false

/-- Is this event a commit RPC to a participant range? -/
def isCommitRpcEv : Event → Bool
  | Event.commitRpc _ => true
  | _ => false

/-- Is this event a range-server read RPC? -/
def isRangeGetRpcEv : Event → Bool
  | Event.rangeGetRpc _ _ => true
  | _ => false

/-- Spec invariant (a): the writeset keys and the deleteset of a participant
range are disjoint. -/
def ParticipantRange.wdDisjoint (pr : ParticipantRange) : Prop :=
  ∀ p ∈ pr.writeset, p.1 ∉ pr.deleteset

instance (pr : ParticipantRange) : Decidable pr.wdDisjoint := by
  unfold ParticipantRange.wdDisjoint; infer_instance

/-- Spec invariant (a) lifted to a transaction: every participant range has
disjoint writeset keys and deleteset. -/
def Transaction.wdInvariant (tx : Transaction) : Prop :=
  ∀ rp ∈ tx.participant_ranges, rp.2.wdDisjoint

instance (tx : Transaction) : Decidable tx.wdInvariant := by
  unfold Transaction.wdInvariant; infer_instance

/-- The recorded leader sequence number of range `r` in `tx`, if `r` is a
participant. -/
def Transaction.lsnOf (tx : Transaction) (r : RangeId) : Option Nat :=
  (alookup tx.participant_ranges r).map ParticipantRange.leader_sequence_number

/-! ## Helper lemmas about the container model -/

theorem alookup_aset_self {α β : Type} [DecidableEq α] (k : α) (v : β)
    (l : List (α × β)) : alookup (aset k v l) k = some v := by
  induction l with
  | nil => simp [aset, alookup]
  | cons p t ih =>
      obtain ⟨a, b⟩ := p
      by_cases h : a = k <;> simp [aset, alookup, h, ih]

theorem alookup_aset_ne {α β : Type} [DecidableEq α] {k k' : α} (h : k' ≠ k)
    (v : β) (l : List (α × β)) : alookup (aset k v l) k' = alookup l k' := by
  induction l with
  | nil => simp [aset, alookup, h, Ne.symm h]
  | cons p t ih =>
      obtain ⟨a, b⟩ := p
      by_cases ha : a = k
      · subst ha; simp [aset, alookup, Ne.symm h]
      · simp [aset, alookup, ha, ih]

theorem mem_aset {α β : Type} [DecidableEq α] {q : α × β} {k : α} {v : β}
    {l : List (α × β)} (h : q ∈ aset k v l) : q = (k, v) ∨ q ∈ l := by
  induction l with
  | nil => simpa [aset] using h
  | cons p t ih =>
      obtain ⟨a, b⟩ := p
      by_cases ha : a = k
      · subst ha
        simp [aset] at h
        rcases h with h | h
        · exact Or.inl h
        · exact Or.inr (List.mem_cons_of_mem _ h)
      · simp [aset, ha] at h
        rcases h with h | h
        · exact Or.inr (by simp [h])
        · rcases ih h with h1 | h1
          · exact Or.inl h1
          · exact Or.inr (List.mem_cons_of_mem _ h1)

theorem alookup_mem {α β : Type} [DecidableEq α] {l : List (α × β)} {k : α}
    {v : β} (h : alookup l k = some v) : (k, v) ∈ l := by
  induction l with
  | nil => simp [alookup] at h
  | cons p t ih =>
      obtain ⟨a, b⟩ := p
      by_cases ha : a = k
      · subst ha
        simp [alookup] at h
        simp [h]
      · simp [alookup, ha] at h
        exact List.mem_cons_of_mem _ (ih h)

theorem alookup_aerase_self {α β : Type} [DecidableEq α] (k : α)
    (l : List (α × β)) : alookup (aerase k l) k = none := by
  induction l with
  | nil => rfl
  | cons p t ih =>
      obtain ⟨a, b⟩ := p
      by_cases ha : a = k
      · simpa [aerase, ha] using ih
      · simpa [aerase, alookup, ha] using ih

theorem mem_aerase {α β : Type} [DecidableEq α] {q : α × β} {k : α}
    {l : List (α × β)} (h : q ∈ aerase k l) : q ∈ l ∧ q.1 ≠ k := by
  simpa [aerase] using (List.mem_filter.mp h)

theorem mem_sinsert_iff {α : Type} [DecidableEq α] {a k : α} {s : List α} :
    a ∈ sinsert k s ↔ a = k ∨ a ∈ s := by
  by_cases h : k ∈ s
  · simp [sinsert, h]
    intro ha; subst ha; exact h
  · simp [sinsert, h]

theorem not_mem_serase_self {α : Type} [DecidableEq α] (k : α) (s : List α) :
    k ∉ serase k s := by
  intro h
  simpa [serase] using (List.mem_filter.mp h).2

theorem mem_serase {α : Type} [DecidableEq α] {a k : α} {s : List α}
    (h : a ∈ serase k s) : a ∈ s :=
  (List.mem_filter.mp h).1

/-! ## Helper lemmas about the transaction operations -/

theorem check_still_running_none_iff (tx : Transaction) :
    tx.check_still_running = none ↔ tx.state = State.running := by
  rcases tx with ⟨s, prs, rks⟩
  cases s <;> simp [Transaction.check_still_running]

theorem setPR_state (tx : Transaction) (r : RangeId) (pr : ParticipantRange) :
    (tx.setPR r pr).state = tx.state := rfl

theorem setPR_resolved (tx : Transaction) (r : RangeId) (pr : ParticipantRange) :
    (tx.setPR r pr).resolved_keyspaces = tx.resolved_keyspaces := rfl

theorem gpr_fst_state (tx : Transaction) (r : RangeId) :
    (tx.get_participant_range r).1.state = tx.state := by
  unfold Transaction.get_participant_range
  cases alookup tx.participant_ranges r <;> rfl

theorem gpr_fst_resolved (tx : Transaction) (r : RangeId) :
    (tx.get_participant_range r).1.resolved_keyspaces = tx.resolved_keyspaces := by
  unfold Transaction.get_participant_range
  cases alookup tx.participant_ranges r <;> rfl

theorem gpr_lookup (tx : Transaction) (r : RangeId) :
    alookup (tx.get_participant_range r).1.participant_ranges r
      = some (tx.get_participant_range r).2 := by
  unfold Transaction.get_participant_range
  cases h : alookup tx.participant_ranges r with
  | some pr => simpa using h
  | none => simp [alookup]

theorem record_abort_ranges (tx : Transaction) (tares : Option OpResult) :
    (tx.record_abort tares).tx.participant_ranges = tx.participant_ranges := by
  unfold Transaction.record_abort
  rcases tares with _ | op
  · rfl
  · cases op <;> rfl

theorem record_abort_state (tx : Transaction) (tares : Option OpResult) :
    (tx.record_abort tares).tx.state = State.aborted := by
  unfold Transaction.record_abort
  rcases tares with _ | op
  · rfl
  · cases op <;> rfl

/-! ## C1: all data operations and commit are gated on the Running state -/

/-- C1: each of `get`, `put`, `del` and `commit` first checks the transaction
state and succeeds only when it is Running: on Aborted each fails with
`TransactionAborted(Other)` and on Preparing or Committed each fails with
`TransactionNoLongerRunning`, in every case returning the transaction
unchanged and dispatching no RPC. -/
theorem ops_require_running (tx : Transaction) (uresp : Keyspace → UniverseResp)
    (oracle : KeyspaceId → Bytes → Option RangeId) (rresp : RangeGetResp)
    (tares tcres : Option OpResult) (prepRes : RangeId → PrepOutcome)
    (epochRes : Option Nat) (ks : Keyspace) (key val : Bytes) :
    (tx.state = State.aborted →
      tx.get uresp oracle rresp tares ks key =
        ⟨Outcome.err (Error.transactionAborted TransactionAbortReason.other), tx, []⟩ ∧
      tx.put uresp oracle ks key val =
        ⟨Outcome.err (Error.transactionAborted TransactionAbortReason.other), tx, []⟩ ∧
      tx.del uresp oracle ks key =
        ⟨Outcome.err (Error.transactionAborted TransactionAbortReason.other), tx, []⟩ ∧
      tx.commit prepRes epochRes tcres tares =
        ⟨Outcome.err (Error.transactionAborted TransactionAbortReason.other), tx, []⟩) ∧
    ((tx.state = State.preparing ∨ tx.state = State.committed) →
      tx.get uresp oracle rresp tares ks key =
        ⟨Outcome.err Error.transactionNoLongerRunning, tx, []⟩ ∧
      tx.put uresp oracle ks key val =
        ⟨Outcome.err Error.transactionNoLongerRunning, tx, []⟩ ∧
      tx.del uresp oracle ks key =
        ⟨Outcome.err Error.transactionNoLongerRunning, tx, []⟩ ∧
      tx.commit prepRes epochRes tcres tares =
        ⟨Outcome.err Error.transactionNoLongerRunning, tx, []⟩) := by
  rcases tx with ⟨s, prs, rks⟩
  cases s <;>
    simp [Transaction.get, Transaction.put, Transaction.del, Transaction.commit,
      Transaction.check_still_running]

/-- C1 witness: the gating theorem applied to a concrete aborted transaction. -/
theorem ops_require_running_witness :
    (⟨State.aborted, [], []⟩ : Transaction).put (fun _ => UniverseResp.notFound)
        (fun _ _ => none) ⟨"n", "k"⟩ 1 2 =
      ⟨Outcome.err (Error.transactionAborted TransactionAbortReason.other),
       ⟨State.aborted, [], []⟩, []⟩ :=
  ((ops_require_running ⟨State.aborted, [], []⟩ (fun _ => UniverseResp.notFound)
      (fun _ _ => none) RangeGetResp.rpcErr none none (fun _ => PrepOutcome.joinErr)
      none ⟨"n", "k"⟩ 1 2).1 rfl).2.1

/-! ## C9: abort is idempotent on an aborted transaction -/

/-- C9: on an Aborted transaction, `abort` returns OK immediately, leaves the
transaction unchanged and dispatches no RPC (no abort fan-out, no state-store
`try_abort`). -/
theorem abort_idempotent_on_aborted (tx : Transaction) (tares : Option OpResult)
    (h : tx.state = State.aborted) : tx.abort tares = ⟨Outcome.ok (), tx, []⟩ := by
  rcases tx with ⟨s, prs, rks⟩
  cases s <;> simp_all [Transaction.abort]

/-- C9 witness: second `abort` on a concrete aborted transaction with a
participant returns OK with an empty event trace. -/
theorem abort_idempotent_on_aborted_witness :
    (⟨State.aborted, [(3, emptyParticipantRange)], []⟩ : Transaction).abort none =
      ⟨Outcome.ok (), ⟨State.aborted, [(3, emptyParticipantRange)], []⟩, []⟩ :=
  abort_idempotent_on_aborted _ none rfl

/-! ## C6: abort does not succeed in every state -/

/-- C6 counterexample: on a Preparing transaction, `abort` does not return OK
but fails with `TransactionNoLongerRunning`, refuting "abort succeeds in
every state, including Preparing and Committed". -/
theorem abort_nonrunning_cex :
    ((⟨State.preparing, [], []⟩ : Transaction).abort
        (some OpResult.transactionIsAborted)).out
      = Outcome.err Error.transactionNoLongerRunning ∧
    ((⟨State.preparing, [], []⟩ : Transaction).abort
        (some OpResult.transactionIsAborted)).out ≠ Outcome.ok () ∧
    ((⟨State.committed, [], []⟩ : Transaction).abort
        (some OpResult.transactionIsAborted)).out
      = Outcome.err Error.transactionNoLongerRunning := by decide

/-- C6 amended: `abort` returns OK immediately on Aborted; on Running it runs
`record_abort` (succeeding when the state store's `try_abort` reports
Aborted); on Preparing and Committed it fails with
`TransactionNoLongerRunning`. -/
theorem abort_state_behavior (tx : Transaction) (tares : Option OpResult) :
    (tx.state = State.aborted → tx.abort tares = ⟨Outcome.ok (), tx, []⟩) ∧
    (tx.state = State.running →
      tx.abort tares = tx.record_abort tares ∧
      (tares = some OpResult.transactionIsAborted →
        (tx.abort tares).out = Outcome.ok () ∧
        (tx.abort tares).tx.state = State.aborted)) ∧
    ((tx.state = State.preparing ∨ tx.state = State.committed) →
      tx.abort tares = ⟨Outcome.err Error.transactionNoLongerRunning, tx, []⟩) := by
  rcases tx with ⟨s, prs, rks⟩
  cases s <;>
    simp [Transaction.abort, Transaction.check_still_running,
      Transaction.record_abort]
  rintro rfl
  simp

/-- C6 witness: the amended abort behavior applied to a concrete Running
transaction whose `try_abort` reports Aborted. -/
theorem abort_state_behavior_witness :
    ((⟨State.running, [(2, emptyParticipantRange)], []⟩ : Transaction).abort
        (some OpResult.transactionIsAborted)).out = Outcome.ok () :=
  (((abort_state_behavior ⟨State.running, [(2, emptyParticipantRange)], []⟩
      (some OpResult.transactionIsAborted)).2.1 rfl).2 rfl).1

/-! ## C5 / C4: commit behavior after successful prepares -/

theorem joinPrepares_allOk (ranges : List RangeId) (f : RangeId → PrepOutcome)
    (h : ∀ r ∈ ranges, ∃ p, f r = PrepOutcome.ok p) :
    joinPrepares ranges f = (JoinOut.allOk, ranges.map Event.prepareJoin) := by
  induction ranges with
  | nil => rfl
  | cons r rest ih =>
      obtain ⟨p, hp⟩ := h r (by simp)
      simp [joinPrepares, hp, ih (fun r hr => h r (by simp [hr]))]

/-- A concrete Running transaction with one participant range. -/
def txOnePart : Transaction := ⟨State.running, [(0, emptyParticipantRange)], []⟩

/-- A prepare-result function where every range prepares successfully with
highest known epoch 3 and epoch lease [0, 0]. -/
def prepOkConst : RangeId → PrepOutcome := fun _ => PrepOutcome.ok ⟨3, (0, 0)⟩

/-- C5 counterexample: all prepares succeed and the state store returns
Aborted from `try_commit`; `commit` fails with `TransactionAborted(Other)`
and dispatches no commit RPC, but the transaction state afterwards is
Preparing, not Aborted, refuting the claim's last conjunct. -/
theorem commit_statestore_abort_cex :
    (txOnePart.commit prepOkConst (some 5) (some OpResult.transactionIsAborted)
        none).out = Outcome.err (Error.transactionAborted TransactionAbortReason.other) ∧
    (txOnePart.commit prepOkConst (some 5) (some OpResult.transactionIsAborted)
        none).trace.countP isCommitRpcEv = 0 ∧
    (txOnePart.commit prepOkConst (some 5) (some OpResult.transactionIsAborted)
        none).tx.state = State.preparing ∧
    State.preparing ≠ State.aborted := by decide

/-- C5 amended: if every prepare succeeds and the state store returns Aborted
from `try_commit`, `commit` fails with `TransactionAborted(Other)`, dispatches
no commit RPC and no `try_abort` (so `record_abort` is not invoked), and the
transaction state afterwards is Preparing (not Aborted). -/
theorem commit_statestore_abort_behavior (tx : Transaction)
    (prepRes : RangeId → PrepOutcome) (epoch : Nat) (tares : Option OpResult)
    (hrun : tx.state = State.running)
    (hprep : ∀ r ∈ tx.participant_ranges.map Prod.fst, ∃ p, prepRes r = PrepOutcome.ok p) :
    tx.commit prepRes (some epoch) (some OpResult.transactionIsAborted) tares =
      ⟨Outcome.err (Error.transactionAborted TransactionAbortReason.other),
       { tx with state := State.preparing },
       (tx.participant_ranges.map Prod.fst).map Event.prepareRpc
         ++ [Event.readEpoch]
         ++ (tx.participant_ranges.map Prod.fst).map Event.prepareJoin
         ++ [Event.tryCommit epoch]⟩ ∧
    (tx.commit prepRes (some epoch) (some OpResult.transactionIsAborted)
        tares).trace.countP isCommitRpcEv = 0 ∧
    (tx.commit prepRes (some epoch) (some OpResult.transactionIsAborted)
        tares).trace.countP isTryAbortEv = 0 ∧
    (tx.commit prepRes (some epoch) (some OpResult.transactionIsAborted)
        tares).tx.state = State.preparing := by
  rcases tx with ⟨s, prs, rks⟩
  obtain rfl : s = State.running := hrun
  have hj := joinPrepares_allOk (prs.map Prod.fst) prepRes (by simpa using hprep)
  have hmain :
      Transaction.commit ⟨State.running, prs, rks⟩ prepRes (some epoch)
          (some OpResult.transactionIsAborted) tares =
        ⟨Outcome.err (Error.transactionAborted TransactionAbortReason.other),
         ⟨State.preparing, prs, rks⟩,
         (prs.map Prod.fst).map Event.prepareRpc ++ [Event.readEpoch]
           ++ (prs.map Prod.fst).map Event.prepareJoin ++ [Event.tryCommit epoch]⟩ := by
    simp [Transaction.commit, Transaction.check_still_running, hj]
  refine ⟨hmain, ?_, ?_, ?_⟩ <;> rw [hmain] <;>
    simp [List.countP_append, List.countP_eq_zero, isCommitRpcEv, isTryAbortEv]

/-- C5 witness: the amended theorem applied to a concrete one-participant
transaction. -/
theorem commit_statestore_abort_behavior_witness :
    (txOnePart.commit prepOkConst (some 5) (some OpResult.transactionIsAborted)
        none).tx.state = State.preparing :=
  (commit_statestore_abort_behavior txOnePart prepOkConst 5 none rfl
    (fun _ _ => ⟨⟨3, (0, 0)⟩, rfl⟩)).2.2.2

/-- Two prepare-task outcomes of the same shape (both join failures, both
client errors, or both successes), possibly with different payloads (epoch
lease, highest known epoch). -/
def PrepOutcome.sameShape : PrepOutcome → PrepOutcome → Prop
  | PrepOutcome.joinErr, PrepOutcome.joinErr => True
  | PrepOutcome.clientErr, PrepOutcome.clientErr => True
  | PrepOutcome.ok _, PrepOutcome.ok _ => True
  | _, _ => False

theorem joinPrepares_congr (ranges : List RangeId) (f g : RangeId → PrepOutcome)
    (h : ∀ r, (f r).sameShape (g r)) :
    joinPrepares ranges f = joinPrepares ranges g := by
  induction ranges with
  | nil => rfl
  | cons r rest ih =>
      have hr := h r
      cases hf : f r <;> cases hg : g r <;>
        rw [hf, hg] at hr <;>
        simp [PrepOutcome.sameShape] at hr <;>
        simp [joinPrepares, hf, hg, ih]

/-- C4 counterexample: with one participant whose prepare returns the epoch
lease [0, 0] and commit epoch 5 — a lease that does not cover the epoch —
`commit` succeeds (returns OK) and never record-aborts, refuting "the
coordinator record-aborts and commit fails with
`TransactionAborted(RangeLeaseExpired)`". -/
theorem commit_ignores_lease_cex :
    prepOkConst 0 = PrepOutcome.ok ⟨3, (0, 0)⟩ ∧
    ¬ ((0 : Nat) ≤ 5 ∧ (5 : Nat) ≤ 0) ∧
    (txOnePart.commit prepOkConst (some 5)
        (some (OpResult.transactionIsCommitted ⟨5⟩)) none).out = Outcome.ok () ∧
    (txOnePart.commit prepOkConst (some 5)
        (some (OpResult.transactionIsCommitted ⟨5⟩)) none).trace.countP
        isTryAbortEv = 0 := by decide

/-- C4 amended: the coordinator performs no epoch-lease validation: the
lease-check code is commented out, and `commit`'s entire behavior (outcome,
resulting state, and event trace) is independent of the payloads
(epoch lease and highest known epoch) of the prepare results — it depends
only on whether each prepare succeeded. -/
theorem commit_lease_not_validated (tx : Transaction) (f g : RangeId → PrepOutcome)
    (epochRes : Option Nat) (tcres tares : Option OpResult)
    (h : ∀ r, (f r).sameShape (g r)) :
    tx.commit f epochRes tcres tares = tx.commit g epochRes tcres tares := by
  rcases tx with ⟨s, prs, rks⟩
  have hjj := joinPrepares_congr (prs.map Prod.fst) f g h
  cases s <;> simp [Transaction.commit, Transaction.check_still_running, hjj]

/-- A second prepare-result function, successful with a different epoch lease
and highest known epoch. -/
def prepOkConst2 : RangeId → PrepOutcome := fun _ => PrepOutcome.ok ⟨9, (100, 200)⟩

/-- C4 witness: commit is unchanged when the prepare leases change from
[0, 0] to [100, 200]. -/
theorem commit_lease_not_validated_witness :
    txOnePart.commit prepOkConst (some 5)
        (some (OpResult.transactionIsCommitted ⟨5⟩)) none
      = txOnePart.commit prepOkConst2 (some 5)
        (some (OpResult.transactionIsCommitted ⟨5⟩)) none :=
  commit_lease_not_validated txOnePart prepOkConst prepOkConst2 (some 5)
    (some (OpResult.transactionIsCommitted ⟨5⟩)) none (fun _ => True.intro)

/-! ## C2: read-your-writes -/

theorem resolve_keyspace_ok {tx : Transaction} {u : Keyspace → UniverseResp}
    {ks : Keyspace} {kid : KeyspaceId} {tx1 : Transaction} {ev : List Event}
    (h : tx.resolve_keyspace u ks = ⟨Outcome.ok kid, tx1, ev⟩) :
    alookup tx1.resolved_keyspaces ks = some kid ∧
    tx1.state = tx.state ∧ tx1.participant_ranges = tx.participant_ranges := by
  unfold Transaction.resolve_keyspace at h
  cases hc : alookup tx.resolved_keyspaces ks with
  | some kid0 =>
      simp [hc] at h
      obtain ⟨hk, htx, _⟩ := h
      subst hk
      rw [← htx]
      exact ⟨hc, rfl, rfl⟩
  | none =>
      cases hu : u ks <;> simp [hc, hu] at h
      obtain ⟨hk, htx, _⟩ := h
      subst hk
      rw [← htx]
      exact ⟨alookup_aset_self _ _ _, rfl, rfl⟩

theorem resolve_frk_ok {tx : Transaction} {u : Keyspace → UniverseResp}
    {o : KeyspaceId → Bytes → Option RangeId} {ks : Keyspace} {key : Bytes}
    {frk : FullRecordKey} {tx1 : Transaction} {ev : List Event}
    (h : tx.resolve_full_record_key u o ks key = ⟨Outcome.ok frk, tx1, ev⟩) :
    ∃ kid, alookup tx1.resolved_keyspaces ks = some kid ∧
      o kid key = some frk.range_id ∧ frk.key = key ∧
      tx1.state = tx.state ∧ tx1.participant_ranges = tx.participant_ranges := by
  unfold Transaction.resolve_full_record_key at h
  cases hr : tx.resolve_keyspace u ks with
  | mk out txm evm =>
      rw [hr] at h
      cases out with
      | err e => simp at h
      | panic => simp at h
      | ok kid =>
          cases ho : o kid key with
          | none => simp [ho] at h
          | some rid =>
              simp [ho] at h
              obtain ⟨hfrk, htx, _⟩ := h
              obtain ⟨hks, hst, hprs⟩ := resolve_keyspace_ok hr
              subst htx
              exact ⟨kid, hks, by simp [← hfrk, ho], by simp [← hfrk], hst, hprs⟩

/-- `get` satisfied locally: when the transaction is Running, the keyspace is
cached, the oracle routes the key to a participant range, and the key is in
that range's writeset (resp. deleteset), `get` returns the buffered value
(resp. None) with no event dispatched and the transaction unchanged. -/
theorem get_local_hit (tx : Transaction) (u : Keyspace → UniverseResp)
    (o : KeyspaceId → Bytes → Option RangeId) (rresp : RangeGetResp)
    (tares : Option OpResult) (ks : Keyspace) (k : Bytes) (kid : KeyspaceId)
    (rid : RangeId) (pr : ParticipantRange)
    (hrun : tx.state = State.running)
    (hks : alookup tx.resolved_keyspaces ks = some kid)
    (ho : o kid k = some rid)
    (hpr : alookup tx.participant_ranges rid = some pr) :
    (∀ v, alookup pr.writeset k = some v →
      tx.get u o rresp tares ks k = ⟨Outcome.ok (some v), tx, []⟩) ∧
    (alookup pr.writeset k = none → k ∈ pr.deleteset →
      tx.get u o rresp tares ks k = ⟨Outcome.ok none, tx, []⟩) := by
  have hc : tx.check_still_running = none := (check_still_running_none_iff tx).mpr hrun
  constructor
  · intro v hw
    simp [Transaction.get, hc, Transaction.resolve_full_record_key,
      Transaction.resolve_keyspace, hks, ho, Transaction.get_participant_range,
      hpr, hw]
  · intro hw hd
    simp [Transaction.get, hc, Transaction.resolve_full_record_key,
      Transaction.resolve_keyspace, hks, ho, Transaction.get_participant_range,
      hpr, hw, hd]

/-- C2: read-your-writes. After a successful `put(ks, k, v)`, a `get(ks, k)`
(whatever the range-server would answer) returns `Some v` with an empty event
trace — in particular no range-server RPC — and leaves the transaction
unchanged; after a successful `del(ks, k)`, `get(ks, k)` likewise returns
`None` with no RPC. -/
theorem read_your_writes (tx tx1 : Transaction) (u u2 : Keyspace → UniverseResp)
    (o : KeyspaceId → Bytes → Option RangeId) (ks : Keyspace) (k v : Bytes)
    (ev : List Event) (rresp : RangeGetResp) (tares : Option OpResult) :
    (tx.put u o ks k v = ⟨Outcome.ok (), tx1, ev⟩ →
      tx1.get u2 o rresp tares ks k = ⟨Outcome.ok (some v), tx1, []⟩) ∧
    (tx.del u o ks k = ⟨Outcome.ok (), tx1, ev⟩ →
      tx1.get u2 o rresp tares ks k = ⟨Outcome.ok none, tx1, []⟩) := by
  constructor
  · intro h
    unfold Transaction.put at h
    cases hc : tx.check_still_running with
    | some e => simp [hc] at h
    | none =>
        have hrun : tx.state = State.running := (check_still_running_none_iff tx).mp hc
        rw [hc] at h
        cases hr : tx.resolve_full_record_key u o ks k with
        | mk out txm evm =>
            rw [hr] at h
            cases out with
            | err e => simp at h
            | panic => simp at h
            | ok frk =>
                cases hg : txm.get_participant_range frk.range_id with
                | mk tx2 pr =>
                    simp [hg] at h
                    obtain ⟨htx1, _⟩ := h
                    obtain ⟨kid, hks, ho, hkey, hst, _⟩ := resolve_frk_ok hr
                    subst hkey
                    have hst2 : tx2.state = txm.state := by
                      have hh := gpr_fst_state txm frk.range_id
                      rw [hg] at hh
                      exact hh
                    have hres2 : tx2.resolved_keyspaces = txm.resolved_keyspaces := by
                      have hh := gpr_fst_resolved txm frk.range_id
                      rw [hg] at hh
                      exact hh
                    refine (get_local_hit tx1 u2 o rresp tares ks frk.key kid
                        frk.range_id
                        { pr with
                          writeset := aset frk.key v pr.writeset,
                          deleteset := serase frk.key pr.deleteset }
                        ?_ ?_ ho ?_).1 v ?_
                    · rw [← htx1, setPR_state]
                      exact hst2.trans (hst.trans hrun)
                    · rw [← htx1, setPR_resolved, hres2]
                      exact hks
                    · rw [← htx1]
                      simp [Transaction.setPR]
                      exact alookup_aset_self _ _ _
                    · exact alookup_aset_self _ _ _
  · intro h
    unfold Transaction.del at h
    cases hc : tx.check_still_running with
    | some e => simp [hc] at h
    | none =>
        have hrun : tx.state = State.running := (check_still_running_none_iff tx).mp hc
        rw [hc] at h
        cases hr : tx.resolve_full_record_key u o ks k with
        | mk out txm evm =>
            rw [hr] at h
            cases out with
            | err e => simp at h
            | panic => simp at h
            | ok frk =>
                cases hg : txm.get_participant_range frk.range_id with
                | mk tx2 pr =>
                    simp [hg] at h
                    obtain ⟨htx1, _⟩ := h
                    obtain ⟨kid, hks, ho, hkey, hst, _⟩ := resolve_frk_ok hr
                    subst hkey
                    have hst2 : tx2.state = txm.state := by
                      have hh := gpr_fst_state txm frk.range_id
                      rw [hg] at hh
                      exact hh
                    have hres2 : tx2.resolved_keyspaces = txm.resolved_keyspaces := by
                      have hh := gpr_fst_resolved txm frk.range_id
                      rw [hg] at hh
                      exact hh
                    refine (get_local_hit tx1 u2 o rresp tares ks frk.key kid
                        frk.range_id
                        { pr with
                          writeset := aerase frk.key pr.writeset,
                          deleteset := sinsert frk.key pr.deleteset }
                        ?_ ?_ ho ?_).2 ?_ ?_
                    · rw [← htx1, setPR_state]
                      exact hst2.trans (hst.trans hrun)
                    · rw [← htx1, setPR_resolved, hres2]
                      exact hks
                    · rw [← htx1]
                      simp [Transaction.setPR]
                      exact alookup_aset_self _ _ _
                    · exact alookup_aerase_self _ _
                    · exact mem_sinsert_iff.mpr (Or.inl rfl)

/-- Concrete collaborators for witnesses: a resolvable keyspace, a constant
oracle, and a fresh Running transaction. -/
def ksA : Keyspace := ⟨"ns", "t"⟩

/-- Universe directory that resolves every keyspace to id 0. -/
def uFound : Keyspace → UniverseResp := fun _ => UniverseResp.found 0

/-- Oracle routing every key to range 0. -/
def oZero : KeyspaceId → Bytes → Option RangeId := fun _ _ => some 0

/-- A fresh Running transaction. -/
def txRun : Transaction := ⟨State.running, [], []⟩

/-- The transaction state after `put(ksA, 7, 42)` on `txRun`. -/
def txAfterPut : Transaction :=
  ⟨State.running, [(0, ⟨[], [(7, 42)], [], 0⟩)], [(ksA, 0)]⟩

/-- C2 witness: after a concrete successful put of 42 at key 7, get returns
Some 42 with an empty trace. -/
theorem read_your_writes_witness :
    txAfterPut.get uFound oZero RangeGetResp.rpcErr none ksA 7
      = ⟨Outcome.ok (some 42), txAfterPut, []⟩ :=
  (read_your_writes txRun txAfterPut uFound uFound oZero ksA 7 42
    [Event.universeLookup ksA] RangeGetResp.rpcErr none).1 (by decide)

/-! ## C3: commit issues one try_commit, after all prepares, before any
commit RPC -/

theorem joinPrepares_allOk_inv (ranges : List RangeId) (f : RangeId → PrepOutcome) :
    ∀ ev, joinPrepares ranges f = (JoinOut.allOk, ev) →
      ev = ranges.map Event.prepareJoin := by
  induction ranges with
  | nil =>
      intro ev h
      simp [joinPrepares] at h
      simp [h]
  | cons r rest ih =>
      intro ev h
      unfold joinPrepares at h
      cases hf : f r with
      | joinErr => rw [hf] at h; simp at h
      | clientErr => rw [hf] at h; simp at h
      | ok p =>
          rw [hf] at h
          cases hj : joinPrepares rest f with
          | mk o2 ev2 =>
              rw [hj] at h
              simp at h
              obtain ⟨ho2, hev⟩ := h
              subst ho2
              rw [← hev, ih ev2 hj]
              simp

theorem prepareRpc_injective : Function.Injective Event.prepareRpc := by
  intro a b hab
  simpa using hab

theorem prepareJoin_injective : Function.Injective Event.prepareJoin := by
  intro a b hab
  simpa using hab

/-- C3: a successful `commit` issues exactly one `try_commit` to the state
store; before it, exactly one prepare RPC is dispatched per participant range
and every one of them has been awaited; and no commit RPC is dispatched
before the `try_commit` decision — commit RPCs are exactly the events after
it, one per participant. -/
theorem commit_trace_protocol (tx : Transaction) (prepRes : RangeId → PrepOutcome)
    (epochRes : Option Nat) (tcres tares : Option OpResult) (tx2 : Transaction)
    (tr : List Event)
    (hnd : (tx.participant_ranges.map Prod.fst).Nodup)
    (h : tx.commit prepRes epochRes tcres tares = ⟨Outcome.ok (), tx2, tr⟩) :
    ∃ epoch pre post,
      tr = pre ++ Event.tryCommit epoch :: post ∧
      pre.countP isTryCommitEv = 0 ∧
      post.countP isTryCommitEv = 0 ∧
      pre.countP isCommitRpcEv = 0 ∧
      (∀ r ∈ tx.participant_ranges.map Prod.fst,
        pre.count (Event.prepareRpc r) = 1 ∧ pre.count (Event.prepareJoin r) = 1) ∧
      post = (tx.participant_ranges.map Prod.fst).map Event.commitRpc := by
  rcases tx with ⟨s, prs, rks⟩
  simp only at hnd ⊢
  cases s with
  | preparing => simp [Transaction.commit, Transaction.check_still_running] at h
  | aborted => simp [Transaction.commit, Transaction.check_still_running] at h
  | committed => simp [Transaction.commit, Transaction.check_still_running] at h
  | running =>
      cases epochRes with
      | none => simp [Transaction.commit, Transaction.check_still_running] at h
      | some epoch =>
          cases hj : joinPrepares (prs.map Prod.fst) prepRes with
          | mk jout evJ =>
              cases jout with
              | joinFailed =>
                  cases hra : Transaction.record_abort ⟨State.preparing, prs, rks⟩ tares with
                  | mk out2 tx3 evA =>
                      cases out2 <;>
                        simp [Transaction.commit, Transaction.check_still_running,
                          hj, hra] at h
              | clientFailed =>
                  simp [Transaction.commit, Transaction.check_still_running, hj] at h
              | allOk =>
                  cases tcres with
                  | none =>
                      simp [Transaction.commit, Transaction.check_still_running, hj] at h
                  | some op =>
                      cases op with
                      | transactionIsAborted =>
                          simp [Transaction.commit, Transaction.check_still_running,
                            hj] at h
                      | transactionIsCommitted info =>
                          by_cases hie : info.epoch = epoch
                          · simp [Transaction.commit, Transaction.check_still_running,
                              hj, hie] at h
                            obtain ⟨_, htr⟩ := h
                            have hevJ := joinPrepares_allOk_inv _ _ evJ hj
                            subst hevJ
                            refine ⟨epoch,
                              (prs.map Prod.fst).map Event.prepareRpc
                                ++ Event.readEpoch ::
                                  (prs.map Prod.fst).map Event.prepareJoin,
                              (prs.map Prod.fst).map Event.commitRpc,
                              ?_, ?_, ?_, ?_, ?_, rfl⟩
                            · rw [← htr]
                              simp
                            · rw [List.countP_eq_zero]
                              intro a ha
                              simp at ha
                              rcases ha with ⟨r, _, rfl⟩ | rfl | ⟨r, _, rfl⟩ <;>
                                simp [isTryCommitEv]
                            · rw [List.countP_eq_zero]
                              intro a ha
                              simp at ha
                              obtain ⟨r, _, rfl⟩ := ha
                              simp [isTryCommitEv]
                            · rw [List.countP_eq_zero]
                              intro a ha
                              simp at ha
                              rcases ha with ⟨r, _, rfl⟩ | rfl | ⟨r, _, rfl⟩ <;>
                                simp [isCommitRpcEv]
                            · intro r hr
                              constructor
                              · rw [List.count_append]
                                rw [List.count_map_of_injective _ _
                                  prepareRpc_injective]
                                rw [List.count_eq_one_of_mem hnd hr]
                                have : (Event.readEpoch ::
                                    (prs.map Prod.fst).map Event.prepareJoin).count
                                      (Event.prepareRpc r) = 0 := by
                                  rw [List.count_eq_zero]
                                  intro hmem
                                  simp at hmem
                                rw [this]
                              · rw [List.count_append]
                                have h1 : ((prs.map Prod.fst).map
                                    Event.prepareRpc).count (Event.prepareJoin r)
                                      = 0 := by
                                  rw [List.count_eq_zero]
                                  intro hmem
                                  simp at hmem
                                have h2 : ((prs.map Prod.fst).map
                                    Event.prepareJoin).count (Event.prepareJoin r)
                                      = 1 := by
                                  rw [List.count_map_of_injective _ _
                                    prepareJoin_injective]
                                  exact List.count_eq_one_of_mem hnd hr
                                simp only [List.map_map] at h2
                                rw [h1, List.count_cons]
                                simp [h2]
                          · simp [Transaction.commit, Transaction.check_still_running,
                              hj, hie] at h

/-- C3 witness: the trace-protocol theorem applied to a concrete successful
one-participant commit. -/
theorem commit_trace_protocol_witness :
    (txOnePart.participant_ranges.map Prod.fst).Nodup ∧
    (∃ epoch pre post,
      [Event.prepareRpc 0, Event.readEpoch, Event.prepareJoin 0, Event.tryCommit 5,
        Event.commitRpc 0] = pre ++ Event.tryCommit epoch :: post ∧
      pre.countP isTryCommitEv = 0 ∧
      post.countP isTryCommitEv = 0 ∧
      pre.countP isCommitRpcEv = 0 ∧
      (∀ r ∈ txOnePart.participant_ranges.map Prod.fst,
        pre.count (Event.prepareRpc r) = 1 ∧ pre.count (Event.prepareJoin r) = 1) ∧
      post = (txOnePart.participant_ranges.map Prod.fst).map Event.commitRpc) :=
  ⟨by decide,
   commit_trace_protocol txOnePart prepOkConst (some 5)
     (some (OpResult.transactionIsCommitted ⟨5⟩)) none
     ⟨State.committed, [(0, emptyParticipantRange)], []⟩
     [Event.prepareRpc 0, Event.readEpoch, Event.prepareJoin 0, Event.tryCommit 5,
       Event.commitRpc 0]
     (by decide) (by decide)⟩

/-! ## C7: writeset/deleteset disjointness is preserved by every operation -/

theorem wdDisjoint_empty : emptyParticipantRange.wdDisjoint := by
  intro p hp
  simp [emptyParticipantRange] at hp

theorem wdInvariant_ranges_eq {tx tx' : Transaction}
    (h : tx'.participant_ranges = tx.participant_ranges) (hi : tx.wdInvariant) :
    tx'.wdInvariant := by
  unfold Transaction.wdInvariant at *
  rw [h]
  exact hi

theorem wdInvariant_gpr (tx : Transaction) (r : RangeId) (h : tx.wdInvariant) :
    (tx.get_participant_range r).1.wdInvariant ∧
    (tx.get_participant_range r).2.wdDisjoint := by
  unfold Transaction.get_participant_range
  cases hc : alookup tx.participant_ranges r with
  | some pr => exact ⟨h, h _ (alookup_mem hc)⟩
  | none =>
      refine ⟨?_, wdDisjoint_empty⟩
      intro rp hm
      rcases List.mem_cons.mp hm with rfl | hm2
      · exact wdDisjoint_empty
      · exact h rp hm2

theorem wdInvariant_setPR (tx : Transaction) (r : RangeId) (pr : ParticipantRange)
    (h : tx.wdInvariant) (hpr : pr.wdDisjoint) : (tx.setPR r pr).wdInvariant := by
  intro rp hm
  rcases mem_aset hm with rfl | hm2
  · exact hpr
  · exact h rp hm2

theorem wdDisjoint_put (pr : ParticipantRange) (k v : Bytes) (h : pr.wdDisjoint) :
    ({ pr with
        writeset := aset k v pr.writeset,
        deleteset := serase k pr.deleteset } : ParticipantRange).wdDisjoint := by
  intro p hp
  rcases mem_aset hp with rfl | hp2
  · exact not_mem_serase_self k pr.deleteset
  · intro hmem
    exact h p hp2 (mem_serase hmem)

theorem wdDisjoint_del (pr : ParticipantRange) (k : Bytes) (h : pr.wdDisjoint) :
    ({ pr with
        writeset := aerase k pr.writeset,
        deleteset := sinsert k pr.deleteset } : ParticipantRange).wdDisjoint := by
  intro p hp
  obtain ⟨hp2, hne⟩ := mem_aerase hp
  intro hmem
  rcases mem_sinsert_iff.mp hmem with h1 | h1
  · exact hne h1
  · exact h p hp2 h1

theorem resolve_keyspace_ranges (tx : Transaction) (u : Keyspace → UniverseResp)
    (ks : Keyspace) :
    (tx.resolve_keyspace u ks).tx.participant_ranges = tx.participant_ranges := by
  unfold Transaction.resolve_keyspace
  cases hc : alookup tx.resolved_keyspaces ks with
  | some k => simp [hc]
  | none => cases hu : u ks <;> simp [hc, hu]

theorem resolve_frk_ranges (tx : Transaction) (u : Keyspace → UniverseResp)
    (o : KeyspaceId → Bytes → Option RangeId) (ks : Keyspace) (key : Bytes) :
    (tx.resolve_full_record_key u o ks key).tx.participant_ranges
      = tx.participant_ranges := by
  unfold Transaction.resolve_full_record_key
  cases hr : tx.resolve_keyspace u ks with
  | mk out txm evm =>
      have hm : txm.participant_ranges = tx.participant_ranges := by
        have hh := resolve_keyspace_ranges tx u ks
        rw [hr] at hh
        exact hh
      cases out with
      | ok kid => cases ho : o kid key <;> simp [ho, hm]
      | err e => simpa using hm
      | panic => simpa using hm

theorem get_preserves_wdInvariant (tx : Transaction) (u : Keyspace → UniverseResp)
    (o : KeyspaceId → Bytes → Option RangeId) (rresp : RangeGetResp)
    (tares : Option OpResult) (ks : Keyspace) (key : Bytes)
    (h : tx.wdInvariant) : (tx.get u o rresp tares ks key).tx.wdInvariant := by
  unfold Transaction.get
  cases hc : tx.check_still_running with
  | some e => simpa using h
  | none =>
      cases hr : tx.resolve_full_record_key u o ks key with
      | mk out txm evm =>
          have hm : txm.wdInvariant := by
            refine wdInvariant_ranges_eq ?_ h
            have hh := resolve_frk_ranges tx u o ks key
            rw [hr] at hh
            exact hh
          cases out with
          | err e => simpa using hm
          | panic => simpa using hm
          | ok frk =>
              cases hg : txm.get_participant_range frk.range_id with
              | mk tx2 pr =>
                  have hgg := wdInvariant_gpr txm frk.range_id hm
                  rw [hg] at hgg
                  obtain ⟨hinv2, hdisj⟩ := hgg
                  cases hw : alookup pr.writeset key with
                  | some v => simpa [hg, hw] using hinv2
                  | none =>
                      by_cases hd : key ∈ pr.deleteset
                      · simpa [hg, hw, hd] using hinv2
                      · cases rresp with
                        | rpcErr => simpa [hg, hw, hd] using hinv2
                        | ok res =>
                            cases hg2 : tx2.get_participant_range frk.range_id with
                            | mk tx3 pr2 =>
                                have hgg2 := wdInvariant_gpr tx2 frk.range_id hinv2
                                rw [hg2] at hgg2
                                obtain ⟨hinv3, hdisj2⟩ := hgg2
                                have hinv4 : (tx3.setPR frk.range_id
                                    { pr2 with
                                      leader_sequence_number :=
                                        pinLsn pr2.leader_sequence_number
                                          res.leader_sequence_number }).wdInvariant :=
                                  wdInvariant_setPR _ _ _ hinv3 hdisj2
                                by_cases hcur : res.leader_sequence_number ≠
                                    u64ToI64 (pinLsn pr2.leader_sequence_number
                                      res.leader_sequence_number)
                                · cases hra : (tx3.setPR frk.range_id
                                      { pr2 with
                                        leader_sequence_number :=
                                          pinLsn pr2.leader_sequence_number
                                            res.leader_sequence_number }).record_abort
                                      tares with
                                  | mk out2 tx5 evA =>
                                      have h5 : tx5.wdInvariant := by
                                        refine wdInvariant_ranges_eq ?_ hinv4
                                        have hh := record_abort_ranges
                                          (tx3.setPR frk.range_id
                                            { pr2 with
                                              leader_sequence_number :=
                                                pinLsn pr2.leader_sequence_number
                                                  res.leader_sequence_number }) tares
                                        rw [hra] at hh
                                        exact hh
                                      cases out2 <;>
                                        simpa [hg, hw, hd, hg2, hcur, hra] using h5
                                · have hinv5 : ((tx3.setPR frk.range_id
                                      { pr2 with
                                        leader_sequence_number :=
                                          pinLsn pr2.leader_sequence_number
                                            res.leader_sequence_number }).setPR
                                      frk.range_id
                                      { pr2 with
                                        leader_sequence_number :=
                                          pinLsn pr2.leader_sequence_number
                                            res.leader_sequence_number,
                                        readset :=
                                          sinsert key pr2.readset }).wdInvariant :=
                                    wdInvariant_setPR _ _ _ hinv4 hdisj2
                                  cases hh : res.vals.head? <;>
                                    simpa [hg, hw, hd, hg2, hcur, hh] using hinv5

theorem put_preserves_wdInvariant (tx : Transaction) (u : Keyspace → UniverseResp)
    (o : KeyspaceId → Bytes → Option RangeId) (ks : Keyspace) (key val : Bytes)
    (h : tx.wdInvariant) : (tx.put u o ks key val).tx.wdInvariant := by
  unfold Transaction.put
  cases hc : tx.check_still_running with
  | some e => simpa using h
  | none =>
      cases hr : tx.resolve_full_record_key u o ks key with
      | mk out txm evm =>
          have hm : txm.wdInvariant := by
            refine wdInvariant_ranges_eq ?_ h
            have hh := resolve_frk_ranges tx u o ks key
            rw [hr] at hh
            exact hh
          cases out with
          | err e => simpa using hm
          | panic => simpa using hm
          | ok frk =>
              cases hg : txm.get_participant_range frk.range_id with
              | mk tx2 pr =>
                  have hgg := wdInvariant_gpr txm frk.range_id hm
                  rw [hg] at hgg
                  obtain ⟨hinv2, hdisj⟩ := hgg
                  simpa [hg] using
                    wdInvariant_setPR tx2 frk.range_id _ hinv2
                      (wdDisjoint_put pr key val hdisj)

theorem del_preserves_wdInvariant (tx : Transaction) (u : Keyspace → UniverseResp)
    (o : KeyspaceId → Bytes → Option RangeId) (ks : Keyspace) (key : Bytes)
    (h : tx.wdInvariant) : (tx.del u o ks key).tx.wdInvariant := by
  unfold Transaction.del
  cases hc : tx.check_still_running with
  | some e => simpa using h
  | none =>
      cases hr : tx.resolve_full_record_key u o ks key with
      | mk out txm evm =>
          have hm : txm.wdInvariant := by
            refine wdInvariant_ranges_eq ?_ h
            have hh := resolve_frk_ranges tx u o ks key
            rw [hr] at hh
            exact hh
          cases out with
          | err e => simpa using hm
          | panic => simpa using hm
          | ok frk =>
              cases hg : txm.get_participant_range frk.range_id with
              | mk tx2 pr =>
                  have hgg := wdInvariant_gpr txm frk.range_id hm
                  rw [hg] at hgg
                  obtain ⟨hinv2, hdisj⟩ := hgg
                  simpa [hg] using
                    wdInvariant_setPR tx2 frk.range_id _ hinv2
                      (wdDisjoint_del pr key hdisj)

theorem commit_preserves_wdInvariant (tx : Transaction)
    (prepRes : RangeId → PrepOutcome) (epochRes : Option Nat)
    (tcres tares : Option OpResult) (h : tx.wdInvariant) :
    (tx.commit prepRes epochRes tcres tares).tx.wdInvariant := by
  rcases tx with ⟨s, prs, rks⟩
  have hpre : (⟨State.preparing, prs, rks⟩ : Transaction).wdInvariant := h
  cases s with
  | preparing => simpa [Transaction.commit, Transaction.check_still_running] using h
  | aborted => simpa [Transaction.commit, Transaction.check_still_running] using h
  | committed => simpa [Transaction.commit, Transaction.check_still_running] using h
  | running =>
      cases epochRes with
      | none =>
          simpa [Transaction.commit, Transaction.check_still_running] using hpre
      | some epoch =>
          cases hj : joinPrepares (prs.map Prod.fst) prepRes with
          | mk jout evJ =>
              cases jout with
              | joinFailed =>
                  cases hra : Transaction.record_abort ⟨State.preparing, prs, rks⟩
                      tares with
                  | mk out2 tx3 evA =>
                      have h3 : tx3.wdInvariant := by
                        refine wdInvariant_ranges_eq ?_ hpre
                        have hh := record_abort_ranges
                          ⟨State.preparing, prs, rks⟩ tares
                        rw [hra] at hh
                        exact hh
                      cases out2 <;>
                        simpa [Transaction.commit, Transaction.check_still_running,
                          hj, hra] using h3
              | clientFailed =>
                  simpa [Transaction.commit, Transaction.check_still_running, hj]
                    using hpre
              | allOk =>
                  cases tcres with
                  | none =>
                      simpa [Transaction.commit, Transaction.check_still_running, hj]
                        using hpre
                  | some op =>
                      cases op with
                      | transactionIsAborted =>
                          simpa [Transaction.commit, Transaction.check_still_running,
                            hj] using hpre
                      | transactionIsCommitted info =>
                          by_cases hie : info.epoch = epoch <;>
                            simpa [Transaction.commit, Transaction.check_still_running,
                              hj, hie] using hpre

theorem abort_preserves_wdInvariant (tx : Transaction) (tares : Option OpResult)
    (h : tx.wdInvariant) : (tx.abort tares).tx.wdInvariant := by
  rcases tx with ⟨s, prs, rks⟩
  cases hra : Transaction.record_abort ⟨s, prs, rks⟩ tares with
  | mk out2 tx3 evA =>
      have h3 : tx3.wdInvariant := by
        refine wdInvariant_ranges_eq ?_ h
        have hh := record_abort_ranges ⟨s, prs, rks⟩ tares
        rw [hra] at hh
        exact hh
      cases s <;>
        simp [Transaction.abort, Transaction.check_still_running, hra] <;>
        first
          | exact h
          | exact h3

/-- C7: the writeset-keys/deleteset disjointness invariant of every
participant range is preserved by every operation: `get`, `put`, `del`,
`commit` and `abort`. -/
theorem wd_invariant_preserved (tx : Transaction) (u : Keyspace → UniverseResp)
    (o : KeyspaceId → Bytes → Option RangeId) (rresp : RangeGetResp)
    (tares tcres : Option OpResult) (prepRes : RangeId → PrepOutcome)
    (epochRes : Option Nat) (ks : Keyspace) (key val : Bytes)
    (h : tx.wdInvariant) :
    (tx.get u o rresp tares ks key).tx.wdInvariant ∧
    (tx.put u o ks key val).tx.wdInvariant ∧
    (tx.del u o ks key).tx.wdInvariant ∧
    (tx.commit prepRes epochRes tcres tares).tx.wdInvariant ∧
    (tx.abort tares).tx.wdInvariant :=
  ⟨get_preserves_wdInvariant tx u o rresp tares ks key h,
   put_preserves_wdInvariant tx u o ks key val h,
   del_preserves_wdInvariant tx u o ks key h,
   commit_preserves_wdInvariant tx prepRes epochRes tcres tares h,
   abort_preserves_wdInvariant tx tares h⟩

/-- C7 witness: the invariant-preservation theorem applied to a concrete
transaction holding both a buffered write and a buffered delete. -/
theorem wd_invariant_preserved_witness :
    (⟨State.running, [(0, ⟨[], [(7, 42)], [9], 0⟩)], [(ksA, 0)]⟩ :
        Transaction).wdInvariant ∧
    ((⟨State.running, [(0, ⟨[], [(7, 42)], [9], 0⟩)], [(ksA, 0)]⟩ :
        Transaction).del uFound oZero ksA 7).tx.wdInvariant :=
  ⟨by decide,
   (wd_invariant_preserved ⟨State.running, [(0, ⟨[], [(7, 42)], [9], 0⟩)], [(ksA, 0)]⟩
     uFound oZero RangeGetResp.rpcErr none none (fun _ => PrepOutcome.joinErr)
     none ksA 7 11 (by decide)).2.2.1⟩

/-! ## C8: leader sequence number pinning and validation -/

theorem lsnOf_ranges_eq {tx tx' : Transaction}
    (h : tx'.participant_ranges = tx.participant_ranges) (r : RangeId) :
    tx'.lsnOf r = tx.lsnOf r := by
  unfold Transaction.lsnOf
  rw [h]

theorem lsnOf_gpr (tx : Transaction) (r r' : RangeId) (n : Nat)
    (h : tx.lsnOf r' = some n) :
    (tx.get_participant_range r).1.lsnOf r' = some n := by
  unfold Transaction.get_participant_range
  cases hc : alookup tx.participant_ranges r with
  | some pr => simpa using h
  | none =>
      unfold Transaction.lsnOf at h ⊢
      by_cases hrr : r = r'
      · subst hrr
        rw [hc] at h
        simp at h
      · simpa [alookup, hrr] using h

theorem lsnOf_setPR_self (tx : Transaction) (r : RangeId) (pr : ParticipantRange) :
    (tx.setPR r pr).lsnOf r = some pr.leader_sequence_number := by
  unfold Transaction.lsnOf Transaction.setPR
  simp [alookup_aset_self]

theorem lsnOf_setPR_ne (tx : Transaction) {r r' : RangeId} (pr : ParticipantRange)
    (h : r' ≠ r) : (tx.setPR r pr).lsnOf r' = tx.lsnOf r' := by
  unfold Transaction.lsnOf Transaction.setPR
  simp [alookup_aset_ne h]

theorem gpr_snd_lsn (tx : Transaction) (r : RangeId) (n : Nat)
    (h : tx.lsnOf r = some n) :
    (tx.get_participant_range r).2.leader_sequence_number = n := by
  unfold Transaction.lsnOf at h
  unfold Transaction.get_participant_range
  cases hc : alookup tx.participant_ranges r with
  | some pr =>
      rw [hc] at h
      simpa using h
  | none =>
      rw [hc] at h
      simp at h

theorem pinLsn_nonzero (n : Nat) (cur : Int) (h : n ≠ 0) : pinLsn n cur = n := by
  have h0 : i64ToU64 UNSET_LEADER_SEQUENCE_NUMBER = 0 := by decide
  simp [pinLsn, h0, h]

theorem commit_ranges (tx : Transaction) (prepRes : RangeId → PrepOutcome)
    (epochRes : Option Nat) (tcres tares : Option OpResult) :
    (tx.commit prepRes epochRes tcres tares).tx.participant_ranges
      = tx.participant_ranges := by
  rcases tx with ⟨s, prs, rks⟩
  cases s with
  | preparing => simp [Transaction.commit, Transaction.check_still_running]
  | aborted => simp [Transaction.commit, Transaction.check_still_running]
  | committed => simp [Transaction.commit, Transaction.check_still_running]
  | running =>
      cases epochRes with
      | none => simp [Transaction.commit, Transaction.check_still_running]
      | some epoch =>
          cases hj : joinPrepares (prs.map Prod.fst) prepRes with
          | mk jout evJ =>
              cases jout with
              | joinFailed =>
                  cases hra : Transaction.record_abort ⟨State.preparing, prs, rks⟩
                      tares with
                  | mk out2 tx3 evA =>
                      have hh := record_abort_ranges ⟨State.preparing, prs, rks⟩ tares
                      rw [hra] at hh
                      cases out2 <;>
                        simpa [Transaction.commit, Transaction.check_still_running,
                          hj, hra] using hh
              | clientFailed =>
                  simp [Transaction.commit, Transaction.check_still_running, hj]
              | allOk =>
                  cases tcres with
                  | none =>
                      simp [Transaction.commit, Transaction.check_still_running, hj]
                  | some op =>
                      cases op with
                      | transactionIsAborted =>
                          simp [Transaction.commit, Transaction.check_still_running,
                            hj]
                      | transactionIsCommitted info =>
                          by_cases hie : info.epoch = epoch <;>
                            simp [Transaction.commit, Transaction.check_still_running,
                              hj, hie]

theorem abort_ranges (tx : Transaction) (tares : Option OpResult) :
    (tx.abort tares).tx.participant_ranges = tx.participant_ranges := by
  rcases tx with ⟨s, prs, rks⟩
  cases hra : Transaction.record_abort ⟨s, prs, rks⟩ tares with
  | mk out2 tx3 evA =>
      have hh := record_abort_ranges ⟨s, prs, rks⟩ tares
      rw [hra] at hh
      cases s <;>
        simp [Transaction.abort, Transaction.check_still_running, hra] <;>
        exact hh

theorem gpr_again {tx tx2 : Transaction} {r : RangeId} {pr : ParticipantRange}
    (h : tx.get_participant_range r = (tx2, pr)) :
    tx2.get_participant_range r = (tx2, pr) := by
  have halk := gpr_lookup tx r
  rw [h] at halk
  unfold Transaction.get_participant_range
  rw [halk]

theorem get_preserves_lsn (tx : Transaction) (u : Keyspace → UniverseResp)
    (o : KeyspaceId → Bytes → Option RangeId) (rresp : RangeGetResp)
    (tares : Option OpResult) (ks : Keyspace) (key : Bytes) (r : RangeId) (n : Nat)
    (h : tx.lsnOf r = some n) (hn : n ≠ 0) :
    (tx.get u o rresp tares ks key).tx.lsnOf r = some n := by
  unfold Transaction.get
  cases hc : tx.check_still_running with
  | some e => simpa using h
  | none =>
      cases hr : tx.resolve_full_record_key u o ks key with
      | mk out txm evm =>
          have hm : txm.lsnOf r = some n := by
            have hh := resolve_frk_ranges tx u o ks key
            rw [hr] at hh
            rw [lsnOf_ranges_eq hh]
            exact h
          cases out with
          | err e => simpa using hm
          | panic => simpa using hm
          | ok frk =>
              cases hg : txm.get_participant_range frk.range_id with
              | mk tx2 pr =>
                  have h2 : tx2.lsnOf r = some n := by
                    have hh := lsnOf_gpr txm frk.range_id r n hm
                    rw [hg] at hh
                    exact hh
                  have halk : alookup tx2.participant_ranges frk.range_id
                      = some pr := by
                    have hh := gpr_lookup txm frk.range_id
                    rw [hg] at hh
                    exact hh
                  cases hw : alookup pr.writeset key with
                  | some v => simpa [hg, hw] using h2
                  | none =>
                      by_cases hd : key ∈ pr.deleteset
                      · simpa [hg, hw, hd] using h2
                      · cases rresp with
                        | rpcErr => simpa [hg, hw, hd] using h2
                        | ok res =>
                            have hg2 := gpr_again hg
                            have h4 : (tx2.setPR frk.range_id
                                { pr with
                                  leader_sequence_number :=
                                    pinLsn pr.leader_sequence_number
                                      res.leader_sequence_number }).lsnOf r
                                  = some n := by
                              by_cases hrr : r = frk.range_id
                              · subst hrr
                                have hplsn : pr.leader_sequence_number = n := by
                                  have hh := gpr_snd_lsn txm frk.range_id n hm
                                  rw [hg] at hh
                                  exact hh
                                rw [lsnOf_setPR_self]
                                simp [hplsn, pinLsn_nonzero n _ hn]
                              · rw [lsnOf_setPR_ne _ _ hrr]
                                exact h2
                            by_cases hcond : res.leader_sequence_number ≠
                                u64ToI64 (pinLsn pr.leader_sequence_number
                                  res.leader_sequence_number)
                            · cases hra : (tx2.setPR frk.range_id
                                  { pr with
                                    leader_sequence_number :=
                                      pinLsn pr.leader_sequence_number
                                        res.leader_sequence_number }).record_abort
                                  tares with
                              | mk out2 tx5 evA =>
                                  have h5 : tx5.lsnOf r = some n := by
                                    have hh := record_abort_ranges
                                      (tx2.setPR frk.range_id
                                        { pr with
                                          leader_sequence_number :=
                                            pinLsn pr.leader_sequence_number
                                              res.leader_sequence_number }) tares
                                    rw [hra] at hh
                                    rw [lsnOf_ranges_eq hh]
                                    exact h4
                                  cases out2 <;>
                                    simpa [hg, hw, hd, hg2, hcond, hra] using h5
                            · have h5 : ((tx2.setPR frk.range_id
                                  { pr with
                                    leader_sequence_number :=
                                      pinLsn pr.leader_sequence_number
                                        res.leader_sequence_number }).setPR
                                  frk.range_id
                                  { pr with
                                    leader_sequence_number :=
                                      pinLsn pr.leader_sequence_number
                                        res.leader_sequence_number,
                                    readset := sinsert key pr.readset }).lsnOf r
                                    = some n := by
                                by_cases hrr : r = frk.range_id
                                · subst hrr
                                  have hplsn : pr.leader_sequence_number = n := by
                                    have hh := gpr_snd_lsn txm frk.range_id n hm
                                    rw [hg] at hh
                                    exact hh
                                  rw [lsnOf_setPR_self]
                                  simp [hplsn, pinLsn_nonzero n _ hn]
                                · rw [lsnOf_setPR_ne _ _ hrr, lsnOf_setPR_ne _ _ hrr]
                                  exact h2
                              cases hh : res.vals.head? <;>
                                simpa [hg, hw, hd, hg2, hcond, hh] using h5

theorem put_preserves_lsn (tx : Transaction) (u : Keyspace → UniverseResp)
    (o : KeyspaceId → Bytes → Option RangeId) (ks : Keyspace) (key val : Bytes)
    (r : RangeId) (n : Nat) (h : tx.lsnOf r = some n) :
    (tx.put u o ks key val).tx.lsnOf r = some n := by
  unfold Transaction.put
  cases hc : tx.check_still_running with
  | some e => simpa using h
  | none =>
      cases hr : tx.resolve_full_record_key u o ks key with
      | mk out txm evm =>
          have hm : txm.lsnOf r = some n := by
            have hh := resolve_frk_ranges tx u o ks key
            rw [hr] at hh
            rw [lsnOf_ranges_eq hh]
            exact h
          cases out with
          | err e => simpa using hm
          | panic => simpa using hm
          | ok frk =>
              cases hg : txm.get_participant_range frk.range_id with
              | mk tx2 pr =>
                  have h2 : tx2.lsnOf r = some n := by
                    have hh := lsnOf_gpr txm frk.range_id r n hm
                    rw [hg] at hh
                    exact hh
                  by_cases hrr : r = frk.range_id
                  · subst hrr
                    have hplsn : pr.leader_sequence_number = n := by
                      have hh := gpr_snd_lsn txm frk.range_id n hm
                      rw [hg] at hh
                      exact hh
                    simp [hg, lsnOf_setPR_self, hplsn]
                  · simp [hg, lsnOf_setPR_ne _ _ hrr]
                    exact h2

theorem del_preserves_lsn (tx : Transaction) (u : Keyspace → UniverseResp)
    (o : KeyspaceId → Bytes → Option RangeId) (ks : Keyspace) (key : Bytes)
    (r : RangeId) (n : Nat) (h : tx.lsnOf r = some n) :
    (tx.del u o ks key).tx.lsnOf r = some n := by
  unfold Transaction.del
  cases hc : tx.check_still_running with
  | some e => simpa using h
  | none =>
      cases hr : tx.resolve_full_record_key u o ks key with
      | mk out txm evm =>
          have hm : txm.lsnOf r = some n := by
            have hh := resolve_frk_ranges tx u o ks key
            rw [hr] at hh
            rw [lsnOf_ranges_eq hh]
            exact h
          cases out with
          | err e => simpa using hm
          | panic => simpa using hm
          | ok frk =>
              cases hg : txm.get_participant_range frk.range_id with
              | mk tx2 pr =>
                  have h2 : tx2.lsnOf r = some n := by
                    have hh := lsnOf_gpr txm frk.range_id r n hm
                    rw [hg] at hh
                    exact hh
                  by_cases hrr : r = frk.range_id
                  · subst hrr
                    have hplsn : pr.leader_sequence_number = n := by
                      have hh := gpr_snd_lsn txm frk.range_id n hm
                      rw [hg] at hh
                      exact hh
                    simp [hg, lsnOf_setPR_self, hplsn]
                  · simp [hg, lsnOf_setPR_ne _ _ hrr]
                    exact h2

/-- C8: (a) once a participant range's recorded leader sequence number is a
non-sentinel (non-`UNSET`, i.e. nonzero) value, no operation ever assigns it
a different value; (b) on a `get` that reaches the range-server read, if the
response's leader sequence number differs from the recorded one after the
pinning step (`pinLsn`), the coordinator record-aborts (state becomes
Aborted, with a `try_abort` to the state store) and `get` fails with
`TransactionAborted(RangeLeadershipChanged)`. -/
theorem leader_seq_pinning (tx : Transaction) (u : Keyspace → UniverseResp)
    (o : KeyspaceId → Bytes → Option RangeId) (rresp : RangeGetResp)
    (tares tcres : Option OpResult) (prepRes : RangeId → PrepOutcome)
    (epochRes : Option Nat) (ks : Keyspace) (key val : Bytes) (r : RangeId)
    (n : Nat) :
    (tx.lsnOf r = some n → n ≠ 0 →
      (tx.get u o rresp tares ks key).tx.lsnOf r = some n ∧
      (tx.put u o ks key val).tx.lsnOf r = some n ∧
      (tx.del u o ks key).tx.lsnOf r = some n ∧
      (tx.commit prepRes epochRes tcres tares).tx.lsnOf r = some n ∧
      (tx.abort tares).tx.lsnOf r = some n) ∧
    (∀ (res : GetRangeOk) (frk : FullRecordKey) (tx1 : Transaction)
        (ev : List Event),
      tx.state = State.running →
      tx.resolve_full_record_key u o ks key = ⟨Outcome.ok frk, tx1, ev⟩ →
      alookup (tx1.get_participant_range frk.range_id).2.writeset key = none →
      key ∉ (tx1.get_participant_range frk.range_id).2.deleteset →
      res.leader_sequence_number ≠
        u64ToI64 (pinLsn
          (tx1.get_participant_range frk.range_id).2.leader_sequence_number
          res.leader_sequence_number) →
      (tx.get u o (RangeGetResp.ok res) (some OpResult.transactionIsAborted)
          ks key).out
        = Outcome.err (Error.transactionAborted
            TransactionAbortReason.rangeLeadershipChanged) ∧
      (tx.get u o (RangeGetResp.ok res) (some OpResult.transactionIsAborted)
          ks key).tx.state = State.aborted ∧
      Event.tryAbort ∈ (tx.get u o (RangeGetResp.ok res)
          (some OpResult.transactionIsAborted) ks key).trace) := by
  constructor
  · intro h hn
    refine ⟨get_preserves_lsn tx u o rresp tares ks key r n h hn,
      put_preserves_lsn tx u o ks key val r n h,
      del_preserves_lsn tx u o ks key r n h, ?_, ?_⟩
    · rw [lsnOf_ranges_eq (commit_ranges tx prepRes epochRes tcres tares) r]
      exact h
    · rw [lsnOf_ranges_eq (abort_ranges tx tares) r]
      exact h
  · intro res frk tx1 ev hrun hres hw hd hcond
    have hc : tx.check_still_running = none :=
      (check_still_running_none_iff tx).mpr hrun
    cases hg : tx1.get_participant_range frk.range_id with
    | mk tx2 pr =>
        simp only [hg] at hw hd hcond
        have hg2 := gpr_again hg
        refine ⟨?_, ?_, ?_⟩ <;>
          simp [Transaction.get, hc, hres, hg, hw, hd, hg2, hcond,
            Transaction.record_abort]

/-- C8 witness: a recorded leader sequence number 7 survives a `put` on the
same range. -/
theorem leader_seq_pinning_witness :
    ((⟨State.running, [(0, ⟨[], [], [], 7⟩)], [(ksA, 0)]⟩ : Transaction).put
        uFound oZero ksA 5 6).tx.lsnOf 0 = some 7 :=
  ((leader_seq_pinning ⟨State.running, [(0, ⟨[], [], [], 7⟩)], [(ksA, 0)]⟩ uFound
      oZero RangeGetResp.rpcErr none none (fun _ => PrepOutcome.joinErr) none
      ksA 5 6 0 7).1 rfl (by decide)).2.1

/-! ## C10: unwraps on the range-read path -/

/-- C10 counterexample: a range-client `get` that succeeds with an empty
`vals` list (and leader sequence number `INVALID`, observed while the
recorded value is `UNSET`) makes `get` return
`Err(TransactionAborted(RangeLeadershipChanged))` — not panic — refuting
"returns success with an empty vals list, get panics instead of returning an
Err". -/
theorem get_empty_vals_no_panic_cex :
    (txRun.get uFound oZero (RangeGetResp.ok ⟨[], -1⟩)
        (some OpResult.transactionIsAborted) ksA 7).out
      = Outcome.err (Error.transactionAborted
          TransactionAbortReason.rangeLeadershipChanged) ∧
    (txRun.get uFound oZero (RangeGetResp.ok ⟨[], -1⟩)
        (some OpResult.transactionIsAborted) ksA 7).out ≠ Outcome.panic := by
  decide

/-- C10 amended: on the range-read path (Running state, resolution
successful, local miss), `get` panics when the range-client call returns an
error; when the call succeeds and the leader-sequence check passes, `get`
panics if `vals` is empty, and returns the first entry of `vals` otherwise.
(When the leader-sequence check fails, `get` instead returns
`Err(TransactionAborted(RangeLeadershipChanged))` without touching `vals`.) -/
theorem get_unwrap_behavior (tx : Transaction) (u : Keyspace → UniverseResp)
    (o : KeyspaceId → Bytes → Option RangeId) (tares : Option OpResult)
    (ks : Keyspace) (key : Bytes) (frk : FullRecordKey) (tx1 : Transaction)
    (ev : List Event)
    (hrun : tx.state = State.running)
    (hres : tx.resolve_full_record_key u o ks key = ⟨Outcome.ok frk, tx1, ev⟩)
    (hw : alookup (tx1.get_participant_range frk.range_id).2.writeset key = none)
    (hd : key ∉ (tx1.get_participant_range frk.range_id).2.deleteset) :
    (tx.get u o RangeGetResp.rpcErr tares ks key).out = Outcome.panic ∧
    (∀ res : GetRangeOk,
      res.leader_sequence_number =
        u64ToI64 (pinLsn
          (tx1.get_participant_range frk.range_id).2.leader_sequence_number
          res.leader_sequence_number) →
      (res.vals = [] →
        (tx.get u o (RangeGetResp.ok res) tares ks key).out = Outcome.panic) ∧
      (∀ v rest, res.vals = v :: rest →
        (tx.get u o (RangeGetResp.ok res) tares ks key).out = Outcome.ok v)) := by
  have hc : tx.check_still_running = none :=
    (check_still_running_none_iff tx).mpr hrun
  cases hg : tx1.get_participant_range frk.range_id with
  | mk tx2 pr =>
      simp only [hg] at hw hd
      have hg2 := gpr_again hg
      constructor
      · simp [Transaction.get, hc, hres, hg, hw, hd]
      · intro res hcondeq
        simp only [hg] at hcondeq
        have hnotne : ¬ (res.leader_sequence_number ≠
            u64ToI64 (pinLsn pr.leader_sequence_number
              res.leader_sequence_number)) :=
          fun hne => hne hcondeq
        constructor
        · intro hnil
          simp [Transaction.get, hc, hres, hg, hw, hd, hg2, hnotne, hnil]
        · intro v rest hcons
          simp [Transaction.get, hc, hres, hg, hw, hd, hg2, hnotne, hcons]

/-- C10 witness: a concrete fresh transaction whose range read fails at the
RPC level panics, and one whose read succeeds with an empty `vals` and a
matching leader sequence number panics too. -/
theorem get_unwrap_behavior_witness :
    (txRun.get uFound oZero RangeGetResp.rpcErr none ksA 7).out = Outcome.panic ∧
    (txRun.get uFound oZero (RangeGetResp.ok ⟨[], 0⟩) none ksA 7).out
      = Outcome.panic :=
  ⟨(get_unwrap_behavior txRun uFound oZero none ksA 7 ⟨0, 7⟩
      ⟨State.running, [], [(ksA, 0)]⟩ [Event.universeLookup ksA] rfl (by decide)
      (by decide) (by decide)).1,
   ((get_unwrap_behavior txRun uFound oZero none ksA 7 ⟨0, 7⟩
      ⟨State.running, [], [(ksA, 0)]⟩ [Event.universeLookup ksA] rfl (by decide)
      (by decide) (by decide)).2 ⟨[], 0⟩ (by decide)).1 rfl⟩

end Atomix
